import Mathlib

/-!
Shallow embedding of `bot_host.py` (BotHostingService): the environment
variable store (`os.environ` as mutated by the handlers), the `.env` bulk
import, persistence, and the bot registry (`active_bots`) with its deploy,
stop and list commands.  Strings are embedded as `List Char` (Python `str`
compares by code points, which is the lexicographic order on the char
list); Python dicts are insertion-ordered association lists, and
`d[k] = v` keeps the position of an existing key.
-/

/-- Python `str`, embedded as its list of code points. -/
abbrev Str := List Char

/-- Insertion-ordered dict keyed by strings (Python `dict`). -/
abbrev StrMap (β : Type) := List (Str × β)

/-- Lookup `m[k]` / `m.get(k)`: first (unique) binding of `k`. -/
def mapGet {β : Type} : StrMap β → Str → Option β
  | [], _ => none
  | p :: ps, k => if p.1 = k then some p.2 else mapGet ps k

/-- Assignment `m[k] = v`: overwrite in place when the key exists, else append
(Python dicts keep insertion order and position on overwrite). -/
def mapSet {β : Type} (m : StrMap β) (k : Str) (v : β) : StrMap β :=
  if (mapGet m k).isSome then
    m.map (fun p => if p.1 = k then (k, v) else p)
  else m ++ [(k, v)]

/-- Deletion `del m[k]`: drop the binding of `k`. -/
def mapDel {β : Type} (m : StrMap β) (k : Str) : StrMap β :=
  m.filter (fun p => decide (p.1 ≠ k))

/-- Keys `m.keys()` in insertion order. -/
def mapKeys {β : Type} (m : StrMap β) : List Str := m.map (·.1)

/-- The dict invariant: the association list has pairwise distinct keys. -/
def keysNodup {β : Type} (m : StrMap β) : Prop := (mapKeys m).Nodup

/-- The environment store, i.e. `os.environ` as the handlers mutate it. -/
abbrev Env := StrMap Str

/-- Python `s.startswith(pre)`. -/
def startsWithStr (s pre : Str) : Bool := List.isPrefixOf pre s

/-- Python `s.endswith(suf)`. -/
def endsWithStr (s suf : Str) : Bool := List.isSuffixOf suf s

/-- Python `s.strip()`: drop leading and trailing whitespace. -/
def pyStrip (s : Str) : Str :=
  ((s.dropWhile Char.isWhitespace).reverse.dropWhile Char.isWhitespace).reverse

/-- Python `s.split("=", 1)` when it yields two parts: split at the first
`'='`; `none` when `s` has no `'='` (there the two-name unpacking in the
source raises `ValueError`). -/
def splitFirstEq : Str → Option (Str × Str)
  | [] => none
  | c :: rest =>
    if c = '=' then some ([], rest)
    else
      match splitFirstEq rest with
      | none => none
      | some (k, v) => some (c :: k, v)

/-- File text split into lines at `'\n'`, as `for line in f` yields them
(the trailing `'\n'` of each line is dropped here; the source strips each
line anyway, and a file ending in `'\n'` contributes a final blank
segment, which the import loop skips as falsy). -/
def splitNl : Str → List Str
  | [] => [[]]
  | c :: rest =>
    if c = '\n' then [] :: splitNl rest
    else
      match splitNl rest with
      | [] => [[c]]
      | l :: ls => (c :: l) :: ls

/-- The reserved host/platform prefix filtered by the source. -/
def reservedPref : Str := "RENDER_".toList

/-- From `_cmd_show_vars` (lines 201-211): the entries enumerated in the
display listing, i.e. all entries whose key does not start with
`"RENDER_"`. -/
def showVarsEntries (env : Env) : Env :=
  env.filter (fun p => !(startsWithStr p.1 reservedPref))

/-- From `_cmd_edit_var_start` (lines 235-243): the keys enumerated in the
edit prompt listing — `os.environ.keys()`, with no filter. -/
def editVarStartKeys (env : Env) : List Str := mapKeys env

/-- From `_save_persistent_vars` (lines 275-280): the entries written to the
persistence file, i.e. all entries whose key does not start with
`"RENDER_"`. -/
def savePersistentEntries (env : Env) : Env :=
  env.filter (fun p => !(startsWithStr p.1 reservedPref))

/-- From `_save_persistent_vars` (lines 275-280): the full file content —
`f"{k}={v}\n"` for each non-reserved entry, in store order. -/
def savePersistentFile (env : Env) : Str :=
  (savePersistentEntries env).foldr
    (fun p acc => p.1 ++ '=' :: p.2 ++ '\n' :: acc) []

/-- One iteration of the import loop of `_handle_env_file`
(lines 224-228): strip the line; skip it when falsy or a comment;
otherwise split at the first `'='` — no `'='` makes the unpacking raise
`ValueError` (`none`), and an empty key makes `os.environ[key] = value`
raise (the OS rejects an empty variable name), both aborting the loop. -/
def envLineStep (env : Env) (rawLine : Str) : Option Env :=
  let line := pyStrip rawLine
  if line = [] then some env
  else if line.head? = some '#' then some env
  else
    match splitFirstEq line with
    | none => none
    | some (k, v) => if k = [] then none else some (mapSet env k v)

/-- The import loop of `_handle_env_file` over the file's lines: on an
exception the loop stops, the enclosing `except` reports an error, and
the `os.environ` mutations already made are kept (`true` = an error was
reported). -/
def runImportLines (env : Env) : List Str → Env × Bool
  | [] => (env, false)
  | l :: ls =>
    match envLineStep env l with
    | none => (env, true)
    | some env2 => runImportLines env2 ls

/-- The user-visible outcome of `_handle_env_file`. -/
inductive EnvFileReply
  | notEnvFile
  | updated
  | errorReply
deriving Repr, DecidableEq

/-- From `_handle_env_file` (lines 213-232): reject a file name not ending in
`".env"` before anything is read; a failing download raises inside the
`try` (error reply, store untouched); otherwise run the import loop. -/
def handleEnvFile (env : Env) (fileName : Str) (downloadOk : Bool) (content : Str) :
    Env × EnvFileReply :=
  if !(endsWithStr fileName ".env".toList) then (env, .notEnvFile)
  else if !downloadOk then (env, .errorReply)
  else
    let r := runImportLines env (splitNl content)
    (r.1, if r.2 then .errorReply else .updated)

/-- From `_cmd_edit_var_complete` (lines 245-257): split the message at the
first `'='` (`ValueError` on no `'='` is caught: no change); update only
an existing variable. -/
def editVarComplete (env : Env) (text : Str) : Env :=
  match splitFirstEq text with
  | none => env
  | some (k, v) => if (mapGet env k).isSome then mapSet env k v else env

/-- A live child-process handle (`subprocess.Popen` result). -/
structure Proc where
  pid : Nat
deriving Repr, DecidableEq

/-- One entry of `active_bots`: `{"process": ..., "repo": ..., "dir": ...}`,
together with the environment the child was spawned with
(`env=os.environ.copy()` at the `Popen` call). -/
structure BotInfo where
  process : Proc
  repo : Str
  dir : Str
  envSnapshot : Env
deriving Repr, DecidableEq

/-- Registry `self.active_bots`. -/
abbrev Registry := StrMap BotInfo

/-- The whole mutable state of the service: the environment store and the
bot registry. -/
structure SysState where
  env : Env
  activeBots : Registry
deriving Repr, DecidableEq

/-- The outcomes of the external steps `_cmd_host` runs, made explicit:
whether `git clone` succeeds, whether `requirements.txt` exists and
`pip install` succeeds, the directory listing seen by `_find_main_file`,
and whether `Popen` succeeds, yielding which process handle. -/
structure DeployWorld where
  cloneOk : Bool
  reqFileExists : Bool
  installOk : Bool
  dirListing : List Str
  spawnOk : Bool
  proc : Proc
deriving Repr, DecidableEq

/-- Which step of `_cmd_host` raised (all are caught by its `except`). -/
inductive DeployError
  | cloneFailed
  | installFailed
  | noEntryPoint
  | spawnFailed
deriving Repr, DecidableEq

/-- From `_find_main_file` (lines 268-273): filter the directory listing to
`".py"` files, sort, take the first; `none` models the `ValueError`
raised when no Python file exists. -/
def findMainFile (dirListing : List Str) : Option Str :=
  let pyFiles := dirListing.filter (fun f => endsWithStr f ".py".toList)
  (List.insertionSort (· ≤ ·) pyFiles).head?

/-- From `_cmd_host` (lines 109-152) with `bot_id` (the truncated `uuid4`)
and the external-world outcomes as explicit inputs: clone, optional
dependency install, entry-point selection, spawn with a copy of the
current environment, then registration under `bot_id`.  Any failing step
raises into the `except`: an error reply and no registration. -/
def cmdHost (s : SysState) (botId : Str) (repoUrl : Str) (w : DeployWorld) :
    SysState × Except DeployError Str :=
  if !w.cloneOk then (s, .error .cloneFailed)
  else if w.reqFileExists && !w.installOk then (s, .error .installFailed)
  else
    match findMainFile w.dirListing with
    | none => (s, .error .noEntryPoint)
    | some _ =>
      if !w.spawnOk then (s, .error .spawnFailed)
      else
        let info : BotInfo := ⟨w.proc, repoUrl, "bot_".toList ++ botId, s.env⟩
        ({ s with activeBots := mapSet s.activeBots botId info }, .ok botId)

/-- The user-visible outcome of `_cmd_stop`. -/
inductive StopReply
  | noArgs
  | notFound
  | stopped
  | failed
deriving Repr, DecidableEq

/-- From `_cmd_stop` (lines 154-170): no argument → usage reply; unknown id →
"Bot not found", no change; otherwise `terminate()` then `del` — when
`terminate()` raises (`terminateOk = false`), the `del` never runs and
the `except` reports failure. -/
def cmdStop (s : SysState) (args : List Str) (terminateOk : Bool) :
    SysState × StopReply :=
  match args with
  | [] => (s, .noArgs)
  | botId :: _ =>
    if (mapGet s.activeBots botId).isNone then (s, .notFound)
    else if terminateOk then
      ({ s with activeBots := mapDel s.activeBots botId }, .stopped)
    else (s, .failed)

/-- From `_cmd_list` (lines 172-186): the bot ids enumerated in the listing
message are exactly the keys of `active_bots`. -/
def listedBotIds (s : SysState) : List Str := mapKeys s.activeBots

/-- A mutation of the configuration store, as one of the source's
handlers performs it. -/
inductive ConfigOp
  | editVar (text : Str)
  | addVar (k : Str) (v : Str)
  | delVar (k : Str)
  | envFileUpload (fileName : Str) (downloadOk : Bool) (content : Str)
deriving Repr, DecidableEq

/-- Apply one configuration mutation to the system state.  `editVar` and
`envFileUpload` follow `_cmd_edit_var_complete` and `_handle_env_file`.
`addVar` and `delVar` are Modelled from the spec: the `_cmd_add_var_*`
and `_cmd_del_var_*` handler bodies are elided in the source (comment at
lines 259-260); spec §4.1 gives `set(key, value)` create-or-overwrite
semantics and `delete(key)` remove-if-present semantics. -/
def applyConfigOp (s : SysState) : ConfigOp → SysState
  | .editVar text => { s with env := editVarComplete s.env text }
  | .addVar k v => { s with env := mapSet s.env k v }
  | .delVar k => { s with env := mapDel s.env k }
  | .envFileUpload f ok c => { s with env := (handleEnvFile s.env f ok c).1 }

/-- Apply a sequence of configuration mutations in order. -/
def applyConfigOps (s : SysState) (ops : List ConfigOp) : SysState :=
  ops.foldl applyConfigOp s

/-! Helper lemmas about the dict model. -/

/-- A key is absent exactly when `mapGet` yields `none`. -/
theorem mapGet_eq_none_iff {β : Type} (m : StrMap β) (k : Str) :
    mapGet m k = none ↔ k ∉ mapKeys m := by
  induction m with
  | nil => simp [mapGet, mapKeys]
  | cons p ps ih =>
    by_cases h : p.1 = k
    · have hk : k ∈ mapKeys (p :: ps) := by
        rw [mapKeys, List.map_cons, h]
        exact List.mem_cons_self _ _
      constructor
      · intro hg
        rw [mapGet, if_pos h] at hg
        cases hg
      · intro hnk
        exact (hnk hk).elim
    · rw [mapGet, if_neg h]
      constructor
      · intro hg hkmem
        rw [mapKeys, List.map_cons] at hkmem
        rcases List.mem_cons.1 hkmem with he | hm
        · exact h he.symm
        · exact (ih.1 hg) hm
      · intro hnk
        apply ih.2
        intro hm
        apply hnk
        rw [mapKeys, List.map_cons]
        exact List.mem_cons_of_mem _ hm

/-- Assigning a fresh key appends the binding. -/
theorem mapSet_fresh {β : Type} (m : StrMap β) (k : Str) (v : β)
    (h : k ∉ mapKeys m) : mapSet m k v = m ++ [(k, v)] := by
  have h0 : mapGet m k = none := (mapGet_eq_none_iff m k).2 h
  simp [mapSet, h0]

/-- Overwriting rewrites the values of the bindings of `k` and nothing else. -/
theorem mapGet_map_overwrite {β : Type} (m : StrMap β) (k : Str) (v : β) :
    mapGet (m.map (fun p => if p.1 = k then (k, v) else p)) k =
      (mapGet m k).map (fun _ => v) := by
  induction m with
  | nil => simp [mapGet]
  | cons p ps ih =>
    by_cases h : p.1 = k <;> simp [mapGet, h, ih]

/-- Looking a key up past bindings that miss it. -/
theorem mapGet_append_of_none {β : Type} (m m2 : StrMap β) (k : Str)
    (h : mapGet m k = none) : mapGet (m ++ m2) k = mapGet m2 k := by
  induction m with
  | nil => rfl
  | cons p ps ih =>
    rw [mapGet] at h
    by_cases hp : p.1 = k
    · rw [if_pos hp] at h
      cases h
    · rw [if_neg hp] at h
      rw [List.cons_append, mapGet, if_neg hp]
      exact ih h

/-- Getting what was just set yields the new value. -/
theorem mapGet_mapSet_self {β : Type} (m : StrMap β) (k : Str) (v : β) :
    mapGet (mapSet m k v) k = some v := by
  by_cases h : (mapGet m k).isSome
  · obtain ⟨w, hw⟩ := Option.isSome_iff_exists.1 h
    rw [mapSet, if_pos h, mapGet_map_overwrite, hw]
    rfl
  · have h0 : mapGet m k = none := Option.not_isSome_iff_eq_none.1 h
    rw [mapSet, if_neg h, mapGet_append_of_none m _ k h0, mapGet, if_pos rfl]

/-- The deleted key is not among the remaining keys. -/
theorem mapDel_key_not_mem {β : Type} (m : StrMap β) (k : Str) :
    k ∉ mapKeys (mapDel m k) := by
  intro h
  simp only [mapKeys, mapDel, List.mem_map] at h
  obtain ⟨p, hp, hpk⟩ := h
  have := (List.mem_filter.1 hp).2
  simp [hpk] at this

/-- Membership with distinct keys determines `mapGet`. -/
theorem mapGet_of_mem_nodup {β : Type} (m : StrMap β) (k : Str) (v : β)
    (hnd : keysNodup m) (hmem : (k, v) ∈ m) : mapGet m k = some v := by
  induction m with
  | nil => cases hmem
  | cons p ps ih =>
    have hnd' : p.1 ∉ mapKeys ps ∧ keysNodup ps := by
      have h2 := hnd
      rw [keysNodup, mapKeys, List.map_cons, List.nodup_cons] at h2
      exact h2
    rcases List.mem_cons.1 hmem with h | h
    · rw [← h, mapGet, if_pos rfl]
    · have hk : k ∈ mapKeys ps := List.mem_map.2 ⟨(k, v), h, rfl⟩
      have hpk : ¬ p.1 = k := fun hc => hnd'.1 (hc ▸ hk)
      rw [mapGet, if_neg hpk]
      exact ih hnd'.2 h

/-- Re-assigning the value a key already has leaves the dict unchanged. -/
theorem mapSet_self {β : Type} (m : StrMap β) (k : Str) (v : β)
    (hnd : keysNodup m) (hget : mapGet m k = some v) : mapSet m k v = m := by
  have hs : (mapGet m k).isSome := by rw [hget]; rfl
  rw [mapSet, if_pos hs]
  have hid : ∀ p ∈ m, (if p.1 = k then (k, v) else p) = p := by
    intro p hp
    obtain ⟨p1, p2⟩ := p
    by_cases hpk : p1 = k
    · subst hpk
      have hg : mapGet m p1 = some p2 := mapGet_of_mem_nodup m p1 p2 hnd hp
      have hv : v = p2 := Option.some_inj.1 (hget.symm.trans hg)
      simp [hv]
    · simp [hpk]
  calc m.map (fun p => if p.1 = k then (k, v) else p) = m.map id :=
        List.map_congr_left hid
    _ = m := List.map_id m

/-! Claim theorems: rejection of non-.env uploads, stop semantics,
failed-deploy atomicity. -/

/-- C10: a bulk-import upload whose file name does not end in ".env" is
rejected before any line is read and the store is left unchanged. -/
theorem c10_non_env_file_rejected (env : Env) (fileName : Str) (downloadOk : Bool)
    (content : Str) (h : endsWithStr fileName ".env".toList = false) :
    handleEnvFile env fileName downloadOk content = (env, EnvFileReply.notEnvFile) := by
  unfold handleEnvFile
  rw [h]
  rfl

/-- Witness for C10 at a concrete upload named "vars.txt". -/
theorem c10_witness :
    handleEnvFile [] "vars.txt".toList true "A=1\n".toList
      = ([], EnvFileReply.notEnvFile) :=
  c10_non_env_file_rejected [] "vars.txt".toList true "A=1\n".toList (by decide)

/-- C9: when terminate() raises during stop of a tracked id, the failure is
reported and the whole state, the registry included, is unchanged. -/
theorem c9_terminate_error_keeps_instance (s : SysState) (botId : Str) (info : BotInfo)
    (h : mapGet s.activeBots botId = some info) :
    cmdStop s [botId] false = (s, StopReply.failed) := by
  have hne : (mapGet s.activeBots botId).isNone = false := by rw [h]; rfl
  simp [cmdStop, hne]

/-- Sample process handle used by witnesses. -/
def procA : Proc := ⟨101⟩

/-- Sample tracked instance record. -/
def infoA : BotInfo :=
  ⟨procA, "https://example/repo".toList, "bot_abc123".toList, []⟩

/-- Sample system state tracking one bot under id "abc123". -/
def stateA : SysState :=
  { env := [], activeBots := [("abc123".toList, infoA)] }

/-- Witness for C9 at the sample state. -/
theorem c9_witness :
    cmdStop stateA ["abc123".toList] false = (stateA, StopReply.failed) :=
  c9_terminate_error_keeps_instance stateA "abc123".toList infoA (by decide)

/-- C7: a deploy failing at any step (clone, install, entry-point
selection, spawn) surfaces that error and leaves the registry — indeed
the whole state — exactly as before; no instance is registered. -/
theorem c7_failed_deploy_registers_nothing (s : SysState) (botId repoUrl : Str)
    (w : DeployWorld) (e : DeployError)
    (h : (cmdHost s botId repoUrl w).2 = Except.error e) :
    (cmdHost s botId repoUrl w).1 = s := by
  cases hc : w.cloneOk <;> cases hr : w.reqFileExists <;> cases hi : w.installOk <;>
    cases hm : findMainFile w.dirListing <;> cases hs : w.spawnOk <;>
      simp_all [cmdHost]

/-- Witness for C7: a deploy whose clone step fails. -/
theorem c7_witness :
    (cmdHost stateA "ffffff".toList "https://example/bad".toList
      ⟨false, false, true, [], true, ⟨202⟩⟩).1 = stateA :=
  c7_failed_deploy_registers_nothing stateA "ffffff".toList "https://example/bad".toList
    ⟨false, false, true, [], true, ⟨202⟩⟩ DeployError.cloneFailed (by rfl)

/-- C6: stopping an untracked id reports not-found and changes nothing;
stopping a tracked id (with terminate() succeeding) removes it from the
registry, so an immediately following list does not include it. -/
theorem c6_stop_semantics (s : SysState) (botId : Str) :
    (∀ terminateOk, mapGet s.activeBots botId = none →
      cmdStop s [botId] terminateOk = (s, StopReply.notFound)) ∧
    (∀ info, mapGet s.activeBots botId = some info →
      (cmdStop s [botId] true).2 = StopReply.stopped ∧
      botId ∉ listedBotIds (cmdStop s [botId] true).1) := by
  constructor
  · intro terminateOk h
    have hne : (mapGet s.activeBots botId).isNone = true := by rw [h]; rfl
    simp [cmdStop, hne]
  · intro info h
    have hne : (mapGet s.activeBots botId).isNone = false := by rw [h]; rfl
    constructor
    · simp [cmdStop, hne]
    · simp only [cmdStop, hne, Bool.false_eq_true, if_false, if_true, listedBotIds]
      exact mapDel_key_not_mem s.activeBots botId

/-- Witness for C6: both branches at the sample state. -/
theorem c6_witness :
    cmdStop stateA ["zzzzzz".toList] true = (stateA, StopReply.notFound) ∧
    (cmdStop stateA ["abc123".toList] true).2 = StopReply.stopped ∧
    "abc123".toList ∉ listedBotIds (cmdStop stateA ["abc123".toList] true).1 :=
  ⟨(c6_stop_semantics stateA "zzzzzz".toList).1 true (by decide),
   (c6_stop_semantics stateA "abc123".toList).2 infoA (by decide)⟩

/-! Claim theorems: the reserved-prefix boundary and id freshness. -/

/-- Sample store holding one reserved-prefix entry and one plain entry. -/
def envReserved : Env :=
  [("RENDER_X".toList, "1".toList), ("HOME".toList, "/root".toList)]

/-- C2 fails: `_cmd_edit_var_start` enumerates `os.environ.keys()` with no
filter, so a reserved-prefix key appears in that listing. -/
theorem c2_counterexample :
    startsWithStr "RENDER_X".toList reservedPref = true ∧
    "RENDER_X".toList ∈ editVarStartKeys envReserved := by
  constructor
  · decide
  · decide

/-- C2 amended: reserved-prefix keys are excluded from the show-vars
listing and from the persisted entry set (the edit-var prompt listing is
the exception). -/
theorem c2_reserved_excluded_from_show_and_persist (env : Env) (k : Str) :
    (k ∈ mapKeys (showVarsEntries env) → startsWithStr k reservedPref = false) ∧
    (k ∈ mapKeys (savePersistentEntries env) → startsWithStr k reservedPref = false) := by
  constructor
  · intro hk
    rw [mapKeys, List.mem_map] at hk
    obtain ⟨p, hp, hpk⟩ := hk
    have hpred := (List.mem_filter.1 hp).2
    rw [hpk] at hpred
    simpa using hpred
  · intro hk
    rw [mapKeys, List.mem_map] at hk
    obtain ⟨p, hp, hpk⟩ := hk
    have hpred := (List.mem_filter.1 hp).2
    rw [hpk] at hpred
    simpa using hpred

/-- Witness for C2 amended at the sample store. -/
theorem c2_witness :
    startsWithStr "HOME".toList reservedPref = false :=
  (c2_reserved_excluded_from_show_and_persist envReserved "HOME".toList).1 (by decide)

/-- Deploy outcomes in which every external step succeeds and the cloned
directory holds exactly one Python file. -/
def worldOk : DeployWorld :=
  ⟨true, false, true, ["main.py".toList], true, ⟨202⟩⟩

/-- C5 fails: the 6-character id is recorded with no check against the
registry, so a deploy whose generated id collides with a tracked id
succeeds and silently replaces the prior record. -/
theorem c5_counterexample :
    "abc123".toList ∈ mapKeys stateA.activeBots ∧
    (cmdHost stateA "abc123".toList "https://example/other".toList worldOk).2
      = Except.ok "abc123".toList ∧
    ¬ mapGet (cmdHost stateA "abc123".toList "https://example/other".toList
        worldOk).1.activeBots "abc123".toList = some infoA := by
  refine ⟨by decide, by rfl, ?_⟩
  intro h
  exact absurd h (by decide)

/-- C5 amended: nothing enforces freshness of the generated id; whenever
it does not collide with a tracked id, a successful deploy appends it
and the tracked ids stay pairwise distinct. -/
theorem c5_fresh_id_keeps_ids_distinct (s : SysState) (botId repoUrl : Str)
    (w : DeployWorld) (hfresh : botId ∉ mapKeys s.activeBots)
    (hnd : keysNodup s.activeBots) :
    keysNodup (cmdHost s botId repoUrl w).1.activeBots ∧
    (∀ r, (cmdHost s botId repoUrl w).2 = Except.ok r →
      mapKeys (cmdHost s botId repoUrl w).1.activeBots
        = mapKeys s.activeBots ++ [botId]) := by
  have hkeys : mapKeys (mapSet s.activeBots botId
      (BotInfo.mk w.proc repoUrl ("bot_".toList ++ botId) s.env))
      = mapKeys s.activeBots ++ [botId] := by
    rw [mapSet_fresh s.activeBots botId _ hfresh, mapKeys, List.map_append]
    rfl
  have hnd2 : keysNodup (mapSet s.activeBots botId
      (BotInfo.mk w.proc repoUrl ("bot_".toList ++ botId) s.env)) := by
    rw [keysNodup, hkeys]
    exact List.Nodup.append hnd (List.nodup_singleton botId)
      (by simpa [List.disjoint_singleton] using hfresh)
  cases hc : w.cloneOk <;> cases hr : w.reqFileExists <;> cases hi : w.installOk <;>
    cases hm : findMainFile w.dirListing <;> cases hs : w.spawnOk <;>
      constructor <;>
        simp_all [cmdHost]

/-- Witness for C5 amended: a fresh id appended to the sample registry. -/
theorem c5_witness :
    keysNodup (cmdHost stateA "ffff01".toList "https://example/two".toList
      worldOk).1.activeBots ∧
    mapKeys (cmdHost stateA "ffff01".toList "https://example/two".toList
      worldOk).1.activeBots = mapKeys stateA.activeBots ++ ["ffff01".toList] := by
  have h := c5_fresh_id_keeps_ids_distinct stateA "ffff01".toList
    "https://example/two".toList worldOk (by decide)
    (by show (mapKeys stateA.activeBots).Nodup; decide)
  exact ⟨h.1, h.2 "ffff01".toList (by rfl)⟩

/-! Claim theorems: snapshot semantics of the spawn environment. -/

/-- A single configuration mutation never touches the registry. -/
theorem applyConfigOp_activeBots (s : SysState) (op : ConfigOp) :
    (applyConfigOp s op).activeBots = s.activeBots := by
  cases op <;> rfl

/-- A sequence of configuration mutations never touches the registry. -/
theorem applyConfigOps_activeBots (ops : List ConfigOp) (s : SysState) :
    (applyConfigOps s ops).activeBots = s.activeBots := by
  induction ops generalizing s with
  | nil => rfl
  | cons op ops ih =>
    have hstep : applyConfigOps s (op :: ops) = applyConfigOps (applyConfigOp s op) ops :=
      rfl
    rw [hstep, ih, applyConfigOp_activeBots]

/-- On success, the registry after `_cmd_host` is the prior registry with
the new record — whose snapshot is the environment at spawn time —
assigned under the generated id. -/
theorem cmdHost_ok_state (s : SysState) (botId repoUrl : Str) (w : DeployWorld) (r : Str)
    (hok : (cmdHost s botId repoUrl w).2 = Except.ok r) :
    (cmdHost s botId repoUrl w).1.activeBots
      = mapSet s.activeBots botId
          (BotInfo.mk w.proc repoUrl ("bot_".toList ++ botId) s.env) := by
  cases hc : w.cloneOk <;> cases hr : w.reqFileExists <;> cases hi : w.installOk <;>
    cases hm : findMainFile w.dirListing <;> cases hs : w.spawnOk <;>
      simp_all [cmdHost]

/-- C8: the snapshot bound to an instance at spawn is the store at spawn
time and never changes: any sequence of set/delete/bulk-import operations
afterwards leaves the tracked record (snapshot included) intact, and a
spawn after those operations snapshots the mutated store instead. -/
theorem c8_snapshot_frozen (s : SysState) (botId repoUrl : Str) (w : DeployWorld)
    (ops : List ConfigOp) (info : BotInfo)
    (h : mapGet (cmdHost s botId repoUrl w).1.activeBots botId = some info) :
    mapGet (applyConfigOps (cmdHost s botId repoUrl w).1 ops).activeBots botId
      = some info ∧
    (∀ r, (cmdHost s botId repoUrl w).2 = Except.ok r → info.envSnapshot = s.env) ∧
    (∀ id2 url2 w2 r2 info2,
      (cmdHost (applyConfigOps (cmdHost s botId repoUrl w).1 ops) id2 url2 w2).2
        = Except.ok r2 →
      mapGet (cmdHost (applyConfigOps (cmdHost s botId repoUrl w).1 ops) id2 url2
          w2).1.activeBots id2 = some info2 →
      info2.envSnapshot = (applyConfigOps (cmdHost s botId repoUrl w).1 ops).env) := by
  refine ⟨?_, ?_, ?_⟩
  · rw [applyConfigOps_activeBots]
    exact h
  · intro r hok
    have hb := cmdHost_ok_state s botId repoUrl w r hok
    rw [hb, mapGet_mapSet_self] at h
    cases h
    rfl
  · intro id2 url2 w2 r2 info2 hok2 hget2
    have hb2 := cmdHost_ok_state _ id2 url2 w2 r2 hok2
    rw [hb2, mapGet_mapSet_self] at hget2
    cases hget2
    rfl

/-- The record a successful sample deploy under id "ffff02" registers. -/
def infoB : BotInfo :=
  ⟨⟨202⟩, "https://example/two".toList, "bot_".toList ++ "ffff02".toList, []⟩

/-- Witness for C8: a concrete deploy followed by an addVar mutation. -/
theorem c8_witness :
    mapGet (applyConfigOps
        (cmdHost stateA "ffff02".toList "https://example/two".toList worldOk).1
        [ConfigOp.addVar "NEW".toList "2".toList]).activeBots "ffff02".toList
      = some infoB ∧
    infoB.envSnapshot = stateA.env := by
  have h := c8_snapshot_frozen stateA "ffff02".toList "https://example/two".toList
    worldOk [ConfigOp.addVar "NEW".toList "2".toList] infoB (by decide)
  exact ⟨h.1, h.2.1 "ffff02".toList (by rfl)⟩

/-! Claim theorems: bulk-import error behaviour. -/

/-- Whether a raw line makes the import loop raise: stripped, non-blank,
not a comment, and either without `'='` or with an empty key. -/
def lineAborts (rawLine : Str) : Bool :=
  let line := pyStrip rawLine
  if line = [] then false
  else if line.head? = some '#' then false
  else
    match splitFirstEq line with
    | none => true
    | some (k, _) => decide (k = [])

/-- A line steps without an exception exactly when it does not abort,
and then where it steps to does not depend on the store. -/
theorem envLineStep_isSome (env : Env) (l : Str) :
    (envLineStep env l).isSome = !(lineAborts l) := by
  unfold envLineStep lineAborts
  by_cases h0 : pyStrip l = []
  · simp [h0]
  · by_cases h1 : (pyStrip l).head? = some '#'
    · simp [h0, h1]
    · simp only [h0, h1, if_false, if_neg]
      cases hsp : splitFirstEq (pyStrip l) with
      | none => simp
      | some kv =>
        by_cases hk : kv.1 = [] <;> simp [hk]

/-- The demonstration input of the claim. -/
def demoImport : Str := "A=1\nB=2\n#comment\n\nBADLINE\nA=3\n".toList

/-- C1 fails: on the demonstration input the import is aborted at
BADLINE — an error is reported, the assignments before BADLINE (A=1,
B=2) are kept, and `A=3` is never applied, so the final store maps A to
"1", not "3". -/
theorem c1_counterexample :
    (runImportLines [] (splitNl demoImport)).2 = true ∧
    mapGet (runImportLines [] (splitNl demoImport)).1 "A".toList
      = some "1".toList ∧
    mapGet (runImportLines [] (splitNl demoImport)).1 "B".toList
      = some "2".toList ∧
    ¬ mapGet (runImportLines [] (splitNl demoImport)).1 "A".toList
      = some "3".toList := by
  refine ⟨by decide, by decide, by decide, ?_⟩
  intro h
  exact absurd h (by decide)

/-- C1 amended: the first malformed line is not skipped — it aborts the
batch: the lines before it are applied, every line after it is ignored,
and the error is reported. -/
theorem c1_first_malformed_aborts (env : Env) (pre : List Str) (bad : Str)
    (suf : List Str) (hpre : ∀ l ∈ pre, lineAborts l = false)
    (hbad : lineAborts bad = true) :
    runImportLines env (pre ++ bad :: suf) = ((runImportLines env pre).1, true) := by
  induction pre generalizing env with
  | nil =>
    have hnone : envLineStep env bad = none := by
      have := envLineStep_isSome env bad
      rw [hbad] at this
      exact Option.not_isSome_iff_eq_none.1 (by rw [this]; decide)
    rw [List.nil_append]
    simp only [runImportLines, hnone]
  | cons l ls ih =>
    have hok : lineAborts l = false := hpre l (List.mem_cons_self l ls)
    have hsome : (envLineStep env l).isSome = true := by
      rw [envLineStep_isSome env l, hok]
      rfl
    obtain ⟨env2, henv2⟩ := Option.isSome_iff_exists.1 hsome
    rw [List.cons_append]
    simp only [runImportLines, henv2]
    exact ih env2 (fun x hx => hpre x (List.mem_cons_of_mem l hx))

/-- Witness for C1 amended at the pieces of the demonstration input. -/
theorem c1_witness :
    runImportLines []
        (["A=1".toList, "B=2".toList, "#comment".toList, []]
          ++ "BADLINE".toList :: ["A=3".toList])
      = ((runImportLines []
          ["A=1".toList, "B=2".toList, "#comment".toList, []]).1, true) :=
  c1_first_malformed_aborts [] ["A=1".toList, "B=2".toList, "#comment".toList, []]
    "BADLINE".toList ["A=3".toList] (by decide) (by decide)

/-! Claim theorems: persist / bulk-import round trip. -/

/-- Splitting after a newline-free first line. -/
theorem splitNl_append (l s : Str) (h : '\n' ∉ l) :
    splitNl (l ++ '\n' :: s) = l :: splitNl s := by
  induction l with
  | nil => simp [splitNl]
  | cons c cs ih =>
    have hc : ¬ c = '\n' := fun hc => h (by rw [hc]; exact List.mem_cons_self _ _)
    have hcs : '\n' ∉ cs := fun hm => h (List.mem_cons_of_mem c hm)
    rw [List.cons_append]
    simp [splitNl, hc, ih hcs]

/-- Splitting the persisted file recovers one line per entry plus the
final blank segment, for newline-free keys and values. -/
theorem splitNl_joinLines (entries : List (Str × Str))
    (h : ∀ p ∈ entries, '\n' ∉ p.1 ∧ '\n' ∉ p.2) :
    splitNl (entries.foldr (fun p acc => p.1 ++ '=' :: p.2 ++ '\n' :: acc) []) =
      entries.map (fun p => p.1 ++ '=' :: p.2) ++ [[]] := by
  induction entries with
  | nil => rfl
  | cons p ps ih =>
    have hp := h p (List.mem_cons_self p ps)
    have hline : '\n' ∉ p.1 ++ '=' :: p.2 := by
      intro hm
      rcases List.mem_append.1 hm with hm | hm
      · exact hp.1 hm
      · rcases List.mem_cons.1 hm with hm | hm
        · exact absurd hm (by decide)
        · exact hp.2 hm
    have hrw : p.1 ++ '=' :: p.2 ++ '\n' ::
        (ps.foldr (fun q acc => q.1 ++ '=' :: q.2 ++ '\n' :: acc) []) =
        (p.1 ++ '=' :: p.2) ++ '\n' ::
        (ps.foldr (fun q acc => q.1 ++ '=' :: q.2 ++ '\n' :: acc) []) := by
      simp [List.append_assoc]
    rw [List.foldr_cons, hrw, splitNl_append _ _ hline,
      ih (fun q hq => h q (List.mem_cons_of_mem p hq))]
    simp

/-- Splitting a well-formed key=value line at the first `'='` recovers
the key and the value, when the key itself has no `'='`. -/
theorem splitFirstEq_mk (k v : Str) (h : '=' ∉ k) :
    splitFirstEq (k ++ '=' :: v) = some (k, v) := by
  induction k with
  | nil => simp [splitFirstEq]
  | cons c cs ih =>
    have hc : ¬ c = '=' := fun hc => h (by rw [hc]; exact List.mem_cons_self _ _)
    have hcs : '=' ∉ cs := fun hm => h (List.mem_cons_of_mem c hm)
    rw [List.cons_append]
    simp [splitFirstEq, hc, ih hcs]

/-- Importing the persisted line of an entry the store already holds
leaves the store unchanged (comment-looking keys are skipped, others are
re-assigned their own value). -/
theorem envLineStep_entry (env : Env) (k v : Str) (hnd : keysNodup env)
    (hmem : (k, v) ∈ env) (hk : k ≠ []) (he : '=' ∉ k)
    (hstrip : pyStrip (k ++ '=' :: v) = k ++ '=' :: v) :
    envLineStep env (k ++ '=' :: v) = some env := by
  have hne : ¬ (k ++ '=' :: v) = [] := by cases k <;> simp
  by_cases hh : (k ++ '=' :: v).head? = some '#'
  · simp [envLineStep, hstrip, hne, hh]
  · simp [envLineStep, hstrip, hne, hh, splitFirstEq_mk k v he, hk,
      mapSet_self env k v hnd (mapGet_of_mem_nodup env k v hnd hmem)]

/-- A run whose every line steps the store to itself applies nothing and
reports no error. -/
theorem runImportLines_of_steps_id (env : Env) (ls : List Str)
    (h : ∀ l ∈ ls, envLineStep env l = some env) :
    runImportLines env ls = (env, false) := by
  induction ls with
  | nil => rfl
  | cons l ls ih =>
    have hl := h l (List.mem_cons_self l ls)
    simp only [runImportLines, hl]
    exact ih (fun x hx => h x (List.mem_cons_of_mem l hx))

/-- Sample store whose single value carries a trailing space. -/
def envTrailingWs : Env := [("K".toList, "v ".toList)]

/-- C3 fails: the import loop strips each line, so a persisted value with
a trailing space (no newline anywhere) comes back without it — the
persisted key K no longer maps to its old value after re-import. -/
theorem c3_counterexample :
    ("K".toList ≠ ([] : Str) ∧ '\n' ∉ "K".toList ∧ '\n' ∉ "v ".toList) ∧
    mapGet (runImportLines envTrailingWs
        (splitNl (savePersistentFile envTrailingWs))).1 "K".toList
      = some "v".toList ∧
    ¬ mapGet (runImportLines envTrailingWs
        (splitNl (savePersistentFile envTrailingWs))).1 "K".toList
      = some "v ".toList := by
  refine ⟨by decide, by decide, ?_⟩
  intro hcontr
  exact absurd hcontr (by decide)

/-- C3 amended: persisting and re-importing into the same store leaves
it exactly unchanged — every persisted key maps to its old value —
provided keys and values are newline-free AND each key is non-empty,
`'='`-free, and each key=value line survives strip unchanged (no leading
whitespace on the key, no trailing whitespace on the value). -/
theorem c3_round_trip (env : Env) (hnd : keysNodup env)
    (h : ∀ p ∈ env, p.1 ≠ [] ∧ '=' ∉ p.1 ∧ '\n' ∉ p.1 ∧ '\n' ∉ p.2 ∧
      pyStrip (p.1 ++ '=' :: p.2) = p.1 ++ '=' :: p.2) :
    runImportLines env (splitNl (savePersistentFile env)) = (env, false) := by
  have hlines : splitNl (savePersistentFile env)
      = (savePersistentEntries env).map (fun p => p.1 ++ '=' :: p.2) ++ [[]] := by
    unfold savePersistentFile
    apply splitNl_joinLines
    intro p hp
    have hpe : p ∈ env := List.mem_of_mem_filter hp
    exact ⟨(h p hpe).2.2.1, (h p hpe).2.2.2.1⟩
  rw [hlines]
  apply runImportLines_of_steps_id
  intro l hl
  rcases List.mem_append.1 hl with hl | hl
  · obtain ⟨p, hp, rfl⟩ := List.mem_map.1 hl
    have hpe : p ∈ env := List.mem_of_mem_filter hp
    obtain ⟨h1, h2, _, _, h5⟩ := h p hpe
    have hmem : (p.1, p.2) ∈ env := by simpa using hpe
    exact envLineStep_entry env p.1 p.2 hnd hmem h1 h2 h5
  · rw [List.mem_singleton] at hl
    subst hl
    rfl

/-- Sample well-formed store: one plain entry and one reserved entry. -/
def envRound : Env :=
  [("A".toList, "1".toList), ("RENDER_X".toList, "x".toList)]

/-- Witness for C3 amended at the sample store. -/
theorem c3_witness :
    runImportLines envRound (splitNl (savePersistentFile envRound))
      = (envRound, false) :=
  c3_round_trip envRound (by show (mapKeys envRound).Nodup; decide) (by decide)

/-! Claim theorems: entry-point selection. -/

/-- C4: entry-point selection filters the directory listing to ".py"
files and returns the lexicographically least of them; it fails (none)
exactly when no candidate exists. -/
theorem c4_entry_point_selection (files : List Str) :
    (findMainFile files = none ↔
      files.filter (fun f => endsWithStr f ".py".toList) = []) ∧
    (∀ m, findMainFile files = some m →
      endsWithStr m ".py".toList = true ∧ m ∈ files ∧
      ∀ f ∈ files, endsWithStr f ".py".toList = true → m ≤ f) := by
  have hdef : findMainFile files =
      (List.insertionSort (· ≤ ·)
        (files.filter (fun f => endsWithStr f ".py".toList))).head? := rfl
  have hperm := List.perm_insertionSort (α := Str) (· ≤ ·)
    (files.filter (fun f => endsWithStr f ".py".toList))
  constructor
  · rw [hdef, List.head?_eq_none_iff]
    constructor
    · intro hs
      exact (hs ▸ hperm.symm).eq_nil
    · intro hp
      rw [hp]
      rfl
  · intro m hm
    rw [hdef] at hm
    cases hsort : List.insertionSort (· ≤ ·)
        (files.filter (fun f => endsWithStr f ".py".toList)) with
    | nil =>
      rw [hsort] at hm
      cases hm
    | cons a t =>
      rw [hsort] at hm
      have ham : a = m := by
        rw [List.head?] at hm
        exact Option.some_inj.1 hm
      subst ham
      have hmemf : a ∈ files.filter (fun f => endsWithStr f ".py".toList) :=
        (hsort ▸ hperm).mem_iff.1 (List.mem_cons_self a t)
      have hsplit := List.mem_filter.1 hmemf
      refine ⟨hsplit.2, hsplit.1, ?_⟩
      intro f hf hfpy
      have hfsort : f ∈ a :: t := by
        rw [← hsort]
        exact (hperm.mem_iff).2 (List.mem_filter.2 ⟨hf, hfpy⟩)
      have hsorted := List.sorted_insertionSort (α := Str) (· ≤ ·)
        (files.filter (fun f => endsWithStr f ".py".toList))
      rw [hsort] at hsorted
      rcases List.mem_cons.1 hfsort with he | ht
      · rw [he]
      · exact List.rel_of_sorted_cons hsorted f ht

/-- The claim's scenario directory listing. -/
def demoFiles : List Str := ["main.py".toList, "setup.py".toList]

/-- Witness for C4 at the claim's scenario: main.py is selected. -/
theorem c4_witness :
    endsWithStr "main.py".toList ".py".toList = true ∧
    "main.py".toList ∈ demoFiles ∧
    "main.py".toList ≤ "setup.py".toList := by
  have h := (c4_entry_point_selection demoFiles).2 "main.py".toList (by decide)
  exact ⟨h.1, h.2.1, h.2.2 "setup.py".toList (by decide) (by decide)⟩
